import Mathlib

/-!
Verification development for the yf stock tracker.

Shallow embedding of the snapshot store, the per-symbol merge logic of
app.py background_update, the MACD crossover classifier, the indicator
pipeline of stock_analyzer.py StockFetcher.run, the rounding of
simple_stock_analyzer.py StockDataFetcher.run, and the symbol
normalisation ensure_nse_symbol.

Modelling conventions:
* Python floats are modelled as exact rationals.  Where pandas produces
  NaN or infinity from a division by zero, the embedding returns an
  Option (none stands for NaN) and the zero-denominator branches of the
  IEEE semantics are written out explicitly.
* Python strings used as symbols are modelled as lists of characters;
  label texts and error messages are Lean strings.
* datetime values are opaque naturals, volumes are integers.
-/

/-- Stock symbols (Python strings) are modelled as lists of characters. -/
abbrev SymbolStr := List Char

/-- The characters of the NSE tag ".NS" (app.py line 127). -/
def nsTag : SymbolStr := ['.', 'N', 'S']

/-- app.py ensure_nse_symbol: append the NSE tag when the symbol does not
already end with it. -/
def ensure_nse_symbol (symbol : SymbolStr) : SymbolStr :=
  if nsTag <:+ symbol then symbol else symbol ++ nsTag

/-- app.py StockData: one snapshot-store entry, the fields set by
StockData.__init__ (lines 49-60).  rsi is an Option because the float it
holds can be NaN. -/
structure StockData where
  symbol : SymbolStr
  price : ℚ
  rsi : Option ℚ
  macd : ℚ
  macd_signal : ℚ
  macd_hist : ℚ
  volume : ℤ
  timestamp : ℕ
  prev_macd : ℚ
  prev_signal : ℚ
  error : Option String
  deriving DecidableEq

/-- app.py StockData.__init__: a zero-initialised entry; now stands for
datetime.now(). -/
def StockData.init (symbol : SymbolStr) (now : ℕ) : StockData :=
  { symbol := symbol, price := 0, rsi := some 0, macd := 0, macd_signal := 0,
    macd_hist := 0, volume := 0, timestamp := now, prev_macd := 0,
    prev_signal := 0, error := none }

def bullishLabel : String := "↑ Bullish"

def bearishLabel : String := "↓ Bearish"

def aboveLabel : String := "↑ Above"

def belowLabel : String := "↓ Below"

def noneLabel : String := "-"

/-- app.py StockData.macd_crossover (lines 71-91).  The hasattr guard on
prev_macd and prev_signal can never fire because __init__ always sets both
fields, so the embedding starts at the bullish test. -/
def StockData.macd_crossover (s : StockData) : String :=
  if s.prev_macd ≤ s.prev_signal ∧ s.macd > s.macd_signal then bullishLabel
  else if s.prev_macd ≥ s.prev_signal ∧ s.macd < s.macd_signal then bearishLabel
  else if s.macd > s.macd_signal then aboveLabel
  else if s.macd < s.macd_signal then belowLabel
  else noneLabel

/-- app.py StockData.update_macd_history (lines 93-96). -/
def StockData.update_macd_history (s : StockData) : StockData :=
  { s with prev_macd := s.macd, prev_signal := s.macd_signal }

/-- The success payload of a fetch: the data dict built by app.py
fetch_stock_data lines 176-185 (and by stock_analyzer.py lines 160-169). -/
structure FetchData where
  price : ℚ
  rsi : Option ℚ
  macd : ℚ
  macd_signal : ℚ
  macd_hist : ℚ
  volume : ℤ
  timestamp : ℕ
  deriving DecidableEq

/-- app.py fetch_stock_data lines 167-185: the emitted data dict, with the
indicator-library outputs passed in as the price, rsi, macd and signal
values; the histogram is computed as macd minus signal (line 171). -/
def fetch_stock_data_result (price : ℚ) (rsi : Option ℚ) (macd signal : ℚ)
    (volume : ℤ) (timestamp : ℕ) : FetchData :=
  { price := price, rsi := rsi, macd := macd, macd_signal := signal,
    macd_hist := macd - signal, volume := volume, timestamp := timestamp }

/-- Outcome of one per-symbol fetch: the data dict, or the error dict. -/
inductive FetchResult where
  | success (data : FetchData)
  | failure (msg : String)
  deriving DecidableEq

/-- app.py background_update lines 217-229: merging a successful fetch into
an existing entry shifts macd and macd_signal into the prev fields first,
then overwrites the metric fields and clears the error. -/
def mergeSuccess (s : StockData) (d : FetchData) : StockData :=
  let s1 := s.update_macd_history
  { s1 with
    price := d.price
    rsi := d.rsi
    macd := d.macd
    macd_signal := d.macd_signal
    macd_hist := d.macd_hist
    volume := d.volume
    timestamp := d.timestamp
    error := none }

/-- app.py background_update lines 213-215: merging a failed fetch into an
existing entry sets only the error field. -/
def mergeError (s : StockData) (msg : String) : StockData :=
  { s with error := some msg }

def applyResult (s : StockData) : FetchResult → StockData
  | FetchResult.success d => mergeSuccess s d
  | FetchResult.failure msg => mergeError s msg

/-- One iteration of the loop body of app.py background_update (lines
210-233) for a single symbol: an error result touches only an existing
entry, a success result creates the entry when absent (with creation time
now) and merges into it. -/
def background_update_step (store : SymbolStr → Option StockData) (symbol : SymbolStr)
    (r : FetchResult) (now : ℕ) : SymbolStr → Option StockData :=
  match r with
  | FetchResult.failure msg =>
      match store symbol with
      | some s => fun k => if k = symbol then some (mergeError s msg) else store k
      | none => store
  | FetchResult.success d =>
      let s := (store symbol).getD (StockData.init symbol now)
      fun k => if k = symbol then some (mergeSuccess s d) else store k

/-- Ghost instrumentation for the stale-merge claim: the code stores no
cycle sequence number anywhere, so an entry is paired with the sequence
number of the orchestrator cycle that last wrote it.  The merge itself
(applyResult, straight from the code) never consults it. -/
structure TrackedEntry where
  entry : StockData
  cycleSeq : ℕ
  deriving DecidableEq

/-- A merge attempt from the cycle with sequence number seq, applied to a
tracked entry: the code applies applyResult unconditionally. -/
def trackedMerge (t : TrackedEntry) (seq : ℕ) (r : FetchResult) : TrackedEntry :=
  { entry := applyResult t.entry r, cycleSeq := seq }

/-- pandas ewm(adjust = false).mean() recurrence continued from the running
state prev: each output is input * a + prev * (1 - a). -/
def ewmFrom (a : ℚ) (prev : ℚ) : List ℚ → List ℚ
  | [] => []
  | x :: xs =>
      let y := x * a + prev * (1 - a)
      y :: ewmFrom a y xs

/-- pandas Series.ewm(span, adjust = false).mean(): the first output equals
the first input, then the exponential recurrence (stock_analyzer.py lines
151-154). -/
def ewm (a : ℚ) : List ℚ → List ℚ
  | [] => []
  | x :: xs => x :: ewmFrom a x xs

/-- The smoothing factor of a pandas span: 2 / (span + 1). -/
def alphaOfSpan (span : ℕ) : ℚ := 2 / (span + 1)

def ewmSpan (span : ℕ) (xs : List ℚ) : List ℚ := ewm (alphaOfSpan span) xs

/-- Series.iloc[-1] on the series produced by the pipeline: the last
element (the lists are nonempty whenever the source indexes them). -/
def lastElem (xs : List ℚ) : ℚ := xs.getD (xs.length - 1) 0

/-- stock_analyzer.py line 153: macd = exp1 - exp2 with spans 12 and 26. -/
def macdLine (closes : List ℚ) : List ℚ :=
  List.zipWith (fun a b => a - b) (ewmSpan 12 closes) (ewmSpan 26 closes)

/-- stock_analyzer.py line 154: signal = macd.ewm(span 9).mean(). -/
def signalLine (closes : List ℚ) : List ℚ := ewmSpan 9 (macdLine closes)

/-- stock_analyzer.py line 155: macd_hist = macd - signal, elementwise. -/
def histLine (closes : List ℚ) : List ℚ :=
  List.zipWith (fun a b => a - b) (macdLine closes) (signalLine closes)

/-- pandas Series.diff on the close series: one difference per adjacent
pair (the leading NaN of pandas is dropped here and reinstated as the
leading 0 of gainsList and lossesList, which is the value the where-filter
of line 145 gives it). -/
def diffsList (closes : List ℚ) : List ℚ :=
  List.zipWith (fun a b => a - b) closes.tail closes

/-- stock_analyzer.py line 145: delta.where(delta greater than 0, 0); the
leading NaN of diff compares false and becomes 0. -/
def gainsList (closes : List ℚ) : List ℚ :=
  0 :: (diffsList closes).map (fun d => max d 0)

/-- stock_analyzer.py line 146: the negated losses, filtered the same way. -/
def lossesList (closes : List ℚ) : List ℚ :=
  0 :: (diffsList closes).map (fun d => max (-d) 0)

/-- Last value of rolling(window = 14).mean(): none when the window is not
yet filled (pandas yields NaN there). -/
def rollMeanLast14 (xs : List ℚ) : Option ℚ :=
  if xs.length < 14 then none
  else some ((xs.drop (xs.length - 14)).sum / 14)

/-- Last RSI value of stock_analyzer.py lines 144-148 under exact rational
arithmetic.  The pandas float conventions at zero denominators are written
out: 0 / 0 is NaN (none), and x / 0 with x positive is infinity, for which
100 - 100 / (1 + rs) evaluates to 100. -/
def rsiLast (closes : List ℚ) : Option ℚ :=
  match rollMeanLast14 (gainsList closes), rollMeanLast14 (lossesList closes) with
  | some g, some l =>
      if l = 0 then (if g = 0 then none else some 100)
      else some (100 - 100 / (1 + g / l))
  | _, _ => none

/-- The data dict built by stock_analyzer.py StockFetcher.run lines 160-169
from the close series (iloc[-1] is lastElem). -/
def computeData (closes : List ℚ) (volume : ℤ) (timestamp : ℕ) : FetchData :=
  { price := lastElem closes, rsi := rsiLast closes,
    macd := lastElem (macdLine closes),
    macd_signal := lastElem (signalLine closes),
    macd_hist := lastElem (histLine closes),
    volume := volume, timestamp := timestamp }

def noDataMsg : String := "No data returned"

/-- stock_analyzer.py StockFetcher.run (lines 128-178), as a function of the
downloaded close series: an empty history is the only failure of the pure
computation; every nonempty series yields a data payload. -/
def StockFetcher_run (closes : List ℚ) (volume : ℤ) (timestamp : ℕ) : FetchResult :=
  if closes = [] then FetchResult.failure noDataMsg
  else FetchResult.success (computeData closes volume timestamp)

/-- Python round to an integer, half to even. -/
def pyRound (q : ℚ) : ℤ :=
  if q - ⌊q⌋ < 1 / 2 then ⌊q⌋
  else if 1 / 2 < q - ⌊q⌋ then ⌊q⌋ + 1
  else if ⌊q⌋ % 2 = 0 then ⌊q⌋ else ⌊q⌋ + 1

/-- Python round(x, 4). -/
def round4 (q : ℚ) : ℚ := (pyRound (q * 10000) : ℚ) / 10000

/-- simple_stock_analyzer.py line 59: current_macd. -/
def simple_current_macd (m : ℚ) : ℚ := round4 m

/-- simple_stock_analyzer.py line 60: current_signal. -/
def simple_current_signal (s : ℚ) : ℚ := round4 s

/-- simple_stock_analyzer.py line 61: round(current_macd - current_signal, 4). -/
def simple_current_hist (m s : ℚ) : ℚ :=
  round4 (simple_current_macd m - simple_current_signal s)

/-- Reference EMA from the specification, as an indexed recurrence over an
abstract close function: EMA 0 = close 0 and
EMA (i+1) = close (i+1) * a + EMA i * (1 - a). -/
def emaRef (a : ℚ) (f : ℕ → ℚ) : ℕ → ℚ
  | 0 => f 0
  | n + 1 => f (n + 1) * a + emaRef a f n * (1 - a)

/-- The same reference recurrence continued from an explicit seed p, used
to relate emaRef to the list-level ewmFrom. -/
def emaFromRef (a p : ℚ) (f : ℕ → ℚ) : ℕ → ℚ
  | 0 => f 0 * a + p * (1 - a)
  | n + 1 => f (n + 1) * a + emaFromRef a p f n * (1 - a)

/-- Reference MACD value at index i: fast EMA minus slow EMA. -/
def macdRef (f : ℕ → ℚ) (i : ℕ) : ℚ :=
  emaRef (alphaOfSpan 12) f i - emaRef (alphaOfSpan 26) f i

/-- Reference signal value at index i: span-9 EMA of the MACD series. -/
def signalRef (f : ℕ → ℚ) (i : ℕ) : ℚ := emaRef (alphaOfSpan 9) (macdRef f) i

/-- Snapshot-store entries reachable in app.py: created by __init__ and
updated by the two merge branches of background_update, success data always
coming from fetch_stock_data. -/
inductive Reachable : StockData → Prop where
  | init : ∀ (symbol : SymbolStr) (now : ℕ), Reachable (StockData.init symbol now)
  | fail : ∀ (s : StockData) (msg : String), Reachable s →
      Reachable (mergeError s msg)
  | ok : ∀ (s : StockData) (price : ℚ) (rsi : Option ℚ) (macd signal : ℚ)
      (volume : ℤ) (timestamp : ℕ), Reachable s →
      Reachable (mergeSuccess s
        (fetch_stock_data_result price rsi macd signal volume timestamp))

/-- An entry with the four values the crossover classifier reads; the
remaining fields are fixed neutrally. -/
def mkEntry (pm ps m sig : ℚ) : StockData :=
  { symbol := [], price := 0, rsi := some 0, macd := m, macd_signal := sig,
    macd_hist := 0, volume := 0, timestamp := 0, prev_macd := pm,
    prev_signal := ps, error := none }

def exampleMsg : String := "boom"

theorem mergeError_foldl (msgs : List String) (s : StockData) :
    (msgs.foldl mergeError s).price = s.price ∧
    (msgs.foldl mergeError s).rsi = s.rsi ∧
    (msgs.foldl mergeError s).macd = s.macd ∧
    (msgs.foldl mergeError s).macd_signal = s.macd_signal ∧
    (msgs.foldl mergeError s).macd_hist = s.macd_hist ∧
    (msgs.foldl mergeError s).volume = s.volume ∧
    (msgs.foldl mergeError s).timestamp = s.timestamp ∧
    (msgs.foldl mergeError s).prev_macd = s.prev_macd ∧
    (msgs.foldl mergeError s).prev_signal = s.prev_signal := by
  induction msgs generalizing s with
  | nil => exact ⟨rfl, rfl, rfl, rfl, rfl, rfl, rfl, rfl, rfl⟩
  | cons m ms ih => exact ih (mergeError s m)

/-- C2: merging a successful fetch into an existing entry (possibly after
any run of error merges since the last success) first copies the current
macd and macd_signal into prev_macd and prev_signal, then overwrites the
metric fields with the fetched values and clears the error; the prev fields
therefore hold the values of the last successful cycle, never values
written by an errored cycle. -/
theorem c2_merge_success_contract (s : StockData) (msgs : List String)
    (d : FetchData) :
    (mergeSuccess (msgs.foldl mergeError s) d).prev_macd = s.macd ∧
    (mergeSuccess (msgs.foldl mergeError s) d).prev_signal = s.macd_signal ∧
    (mergeSuccess (msgs.foldl mergeError s) d).price = d.price ∧
    (mergeSuccess (msgs.foldl mergeError s) d).rsi = d.rsi ∧
    (mergeSuccess (msgs.foldl mergeError s) d).macd = d.macd ∧
    (mergeSuccess (msgs.foldl mergeError s) d).macd_signal = d.macd_signal ∧
    (mergeSuccess (msgs.foldl mergeError s) d).macd_hist = d.macd_hist ∧
    (mergeSuccess (msgs.foldl mergeError s) d).volume = d.volume ∧
    (mergeSuccess (msgs.foldl mergeError s) d).timestamp = d.timestamp ∧
    (mergeSuccess (msgs.foldl mergeError s) d).error = none := by
  have h := mergeError_foldl msgs s
  exact ⟨h.2.2.1, h.2.2.2.1, rfl, rfl, rfl, rfl, rfl, rfl, rfl, rfl⟩

/-- C3: merging a failed fetch into an existing entry sets only the error
field; price, rsi, macd, macd_signal, macd_hist, prev_macd, prev_signal,
volume and timestamp are all unchanged. -/
theorem c3_merge_error_frame (s : StockData) (msg : String) :
    (mergeError s msg).price = s.price ∧
    (mergeError s msg).rsi = s.rsi ∧
    (mergeError s msg).macd = s.macd ∧
    (mergeError s msg).macd_signal = s.macd_signal ∧
    (mergeError s msg).macd_hist = s.macd_hist ∧
    (mergeError s msg).prev_macd = s.prev_macd ∧
    (mergeError s msg).prev_signal = s.prev_signal ∧
    (mergeError s msg).volume = s.volume ∧
    (mergeError s msg).timestamp = s.timestamp ∧
    (mergeError s msg).error = some msg :=
  ⟨rfl, rfl, rfl, rfl, rfl, rfl, rfl, rfl, rfl, rfl⟩

/-- C1: counterexample.  A stored entry whose last write came from cycle 5
receives a merge attempt from the stale cycle 3; the claim says the merge
must be a no-op, but the code applies it and the entry changes. -/
theorem c1_counterexample :
    3 ≤ (5 : ℕ) ∧
    trackedMerge { entry := StockData.init ['A'] 0, cycleSeq := 5 } 3
        (FetchResult.success (fetch_stock_data_result 10 (some 55) 3 1 100 7))
      ≠ { entry := StockData.init ['A'] 0, cycleSeq := 5 } := by
  refine ⟨by decide, ?_⟩
  intro h
  have hp := congrArg (fun t => t.entry.price) h
  simp [trackedMerge, applyResult, mergeSuccess, StockData.update_macd_history,
    fetch_stock_data_result, StockData.init] at hp

/-- C1 amended: the code keeps no cycle sequence number and never rejects a
merge.  Even when the incoming sequence is not greater than that of the
last applied write, a success merge overwrites the metric fields and
clears the error, and a failure merge sets the error, exactly as a fresh
merge would. -/
theorem c1_stale_merge_applied (t : TrackedEntry) (seq : ℕ) (d : FetchData)
    (msg : String) (h : seq ≤ t.cycleSeq) :
    (trackedMerge t seq (FetchResult.success d)).entry = mergeSuccess t.entry d ∧
    (trackedMerge t seq (FetchResult.success d)).entry.price = d.price ∧
    (trackedMerge t seq (FetchResult.success d)).entry.macd = d.macd ∧
    (trackedMerge t seq (FetchResult.success d)).entry.error = none ∧
    (trackedMerge t seq (FetchResult.failure msg)).entry = mergeError t.entry msg ∧
    (trackedMerge t seq (FetchResult.failure msg)).cycleSeq = seq :=
  ⟨rfl, rfl, rfl, rfl, rfl, rfl⟩

theorem c1_stale_merge_applied_witness :
    3 ≤ (5 : ℕ) ∧
    ((trackedMerge { entry := StockData.init ['A'] 0, cycleSeq := 5 } 3
        (FetchResult.success (fetch_stock_data_result 10 (some 55) 3 1 100 7))).entry
      = mergeSuccess (StockData.init ['A'] 0)
          (fetch_stock_data_result 10 (some 55) 3 1 100 7) ∧
    (trackedMerge { entry := StockData.init ['A'] 0, cycleSeq := 5 } 3
        (FetchResult.success (fetch_stock_data_result 10 (some 55) 3 1 100 7))).entry.price
      = (fetch_stock_data_result 10 (some 55) 3 1 100 7).price ∧
    (trackedMerge { entry := StockData.init ['A'] 0, cycleSeq := 5 } 3
        (FetchResult.success (fetch_stock_data_result 10 (some 55) 3 1 100 7))).entry.macd
      = (fetch_stock_data_result 10 (some 55) 3 1 100 7).macd ∧
    (trackedMerge { entry := StockData.init ['A'] 0, cycleSeq := 5 } 3
        (FetchResult.success (fetch_stock_data_result 10 (some 55) 3 1 100 7))).entry.error
      = none ∧
    (trackedMerge { entry := StockData.init ['A'] 0, cycleSeq := 5 } 3
        (FetchResult.failure exampleMsg)).entry
      = mergeError (StockData.init ['A'] 0) exampleMsg ∧
    (trackedMerge { entry := StockData.init ['A'] 0, cycleSeq := 5 } 3
        (FetchResult.failure exampleMsg)).cycleSeq = 3) :=
  ⟨by decide,
    c1_stale_merge_applied { entry := StockData.init ['A'] 0, cycleSeq := 5 } 3
      (fetch_stock_data_result 10 (some 55) 3 1 100 7) exampleMsg (by decide)⟩

/-- C5: counterexample.  On a symbol's first cycle the entry is created
with zero previous values; a successful merge with macd above signal then
classifies as Bullish, not as the None label, contradicting the claim that
the first cycle always yields None. -/
theorem c5_counterexample_first_cycle :
    Option.map StockData.macd_crossover
        (background_update_step (fun _ => none) ['X']
          (FetchResult.success (fetch_stock_data_result 10 (some 50) 1 0 100 7))
          0 ['X'])
      = some bullishLabel ∧ bullishLabel ≠ noneLabel := by
  constructor
  · decide
  · decide

/-- C5 amended: the classifier returns the None label exactly when macd
equals macd_signal.  There is no absent-previous-values case: __init__
initialises prev_macd and prev_signal to 0, so on a symbol's first cycle
the result is whatever the zero previous values dictate (Bullish, Bearish,
Above or Below unless macd equals signal), not necessarily None. -/
theorem c5_none_iff_equal (s : StockData) :
    s.macd_crossover = noneLabel ↔ s.macd = s.macd_signal := by
  unfold StockData.macd_crossover
  split_ifs with h1 h2 h3 h4
  · exact iff_of_false (by decide) (ne_of_gt h1.2)
  · exact iff_of_false (by decide) (ne_of_lt h2.2)
  · exact iff_of_false (by decide) (ne_of_gt h3)
  · exact iff_of_false (by decide) (ne_of_lt h4)
  · exact iff_of_true rfl (le_antisymm (not_lt.mp h3) (not_lt.mp h4))

/-- C6: counterexample.  A five-sample series has fewer than 27 samples,
yet the fetch succeeds and produces a metrics payload: there is no
27-sample precondition and no InsufficientDataError in the code. -/
theorem c6_counterexample_short_series :
    ([1, 2, 3, 4, 5] : List ℚ).length < 27 ∧
    StockFetcher_run [1, 2, 3, 4, 5] 0 0
      = FetchResult.success (computeData [1, 2, 3, 4, 5] 0 0) := by
  constructor
  · decide
  · rfl

/-- C6 amended: the only failing input of the pure fetch computation is
the empty series (the "No data returned" error); every nonempty series,
however short, is processed without raising and yields a payload. -/
theorem c6_failure_iff_empty (closes : List ℚ) (volume : ℤ) (timestamp : ℕ) :
    StockFetcher_run closes volume timestamp = FetchResult.failure noDataMsg
      ↔ closes = [] := by
  unfold StockFetcher_run
  split_ifs with h
  · simp [h]
  · simp [h]

theorem ensure_keeps (s : SymbolStr) (h : nsTag <:+ s) : ensure_nse_symbol s = s := by
  unfold ensure_nse_symbol
  exact if_pos h

theorem ensure_ends (s : SymbolStr) : nsTag <:+ ensure_nse_symbol s := by
  unfold ensure_nse_symbol
  split_ifs with h
  · exact h
  · exact List.suffix_append s nsTag

/-- C10: ensure_nse_symbol always produces a symbol ending in the NSE tag,
and it is idempotent; hence the store key of a loaded symbol and the key a
single-symbol read request computes agree, and a lookup for a bare symbol
and for its tagged form resolve to the same key. -/
theorem c10_ensure_nse (s : SymbolStr) :
    nsTag <:+ ensure_nse_symbol s ∧
    ensure_nse_symbol (ensure_nse_symbol s) = ensure_nse_symbol s ∧
    (¬ nsTag <:+ s → ensure_nse_symbol (s ++ nsTag) = ensure_nse_symbol s) := by
  refine ⟨ensure_ends s, ensure_keeps _ (ensure_ends s), fun h => ?_⟩
  rw [ensure_keeps _ (List.suffix_append s nsTag)]
  unfold ensure_nse_symbol
  rw [if_neg h]

theorem c10_ensure_nse_witness :
    nsTag <:+ ensure_nse_symbol ['X'] ∧
    ensure_nse_symbol (ensure_nse_symbol ['X']) = ensure_nse_symbol ['X'] ∧
    ensure_nse_symbol (['X'] ++ nsTag) = ensure_nse_symbol ['X'] :=
  ⟨(c10_ensure_nse ['X']).1, (c10_ensure_nse ['X']).2.1,
    (c10_ensure_nse ['X']).2.2 (by decide)⟩

/-- C4: full characterisation of the crossover classifier with previous
values present (they always are): Bullish on prev_macd at most prev_signal
with macd above signal; Bearish on prev_macd at least prev_signal with
macd below signal; Above and Below only when the respective crossover
condition failed, so crossovers take priority; and the two concrete
examples of the claim. -/
theorem c4_crossover_classification :
    (∀ s : StockData,
      (s.macd_crossover = bullishLabel ↔
        s.prev_macd ≤ s.prev_signal ∧ s.macd > s.macd_signal) ∧
      (s.macd_crossover = bearishLabel ↔
        s.prev_macd ≥ s.prev_signal ∧ s.macd < s.macd_signal) ∧
      (s.macd_crossover = aboveLabel ↔
        s.macd > s.macd_signal ∧ ¬ s.prev_macd ≤ s.prev_signal) ∧
      (s.macd_crossover = belowLabel ↔
        s.macd < s.macd_signal ∧ ¬ s.prev_macd ≥ s.prev_signal)) ∧
    (mkEntry 1 (6/5) (13/10) (11/10)).macd_crossover = bullishLabel ∧
    (mkEntry 2 1 (9/10) 1).macd_crossover = bearishLabel := by
  refine ⟨fun s => ?_, ?_, ?_⟩
  · unfold StockData.macd_crossover
    split_ifs with h1 h2 h3 h4
    · exact ⟨iff_of_true rfl h1,
        iff_of_false (by decide) (fun hb => lt_asymm h1.2 hb.2),
        iff_of_false (by decide) (fun hc => hc.2 h1.1),
        iff_of_false (by decide) (fun hd => lt_asymm h1.2 hd.1)⟩
    · exact ⟨iff_of_false (by decide) h1,
        iff_of_true rfl h2,
        iff_of_false (by decide) (fun hc => lt_asymm h2.2 hc.1),
        iff_of_false (by decide) (fun hd => hd.2 h2.1)⟩
    · exact ⟨iff_of_false (by decide) h1,
        iff_of_false (by decide) (fun hb => lt_asymm h3 hb.2),
        iff_of_true rfl ⟨h3, fun hp => h1 ⟨hp, h3⟩⟩,
        iff_of_false (by decide) (fun hd => lt_asymm h3 hd.1)⟩
    · exact ⟨iff_of_false (by decide) (fun ha => h3 ha.2),
        iff_of_false (by decide) h2,
        iff_of_false (by decide) (fun hc => h3 hc.1),
        iff_of_true rfl ⟨h4, fun hq => h2 ⟨hq, h4⟩⟩⟩
    · exact ⟨iff_of_false (by decide) (fun ha => h3 ha.2),
        iff_of_false (by decide) (fun hb => h4 hb.2),
        iff_of_false (by decide) (fun hc => h3 hc.1),
        iff_of_false (by decide) (fun hd => h4 hd.1)⟩
  · norm_num [StockData.macd_crossover, mkEntry]
  · norm_num [StockData.macd_crossover, mkEntry]

theorem ewmFrom_length (a p : ℚ) (xs : List ℚ) :
    (ewmFrom a p xs).length = xs.length := by
  induction xs generalizing p with
  | nil => rfl
  | cons x xs ih => simp only [ewmFrom, List.length_cons]; rw [ih]

theorem ewm_length (a : ℚ) (xs : List ℚ) : (ewm a xs).length = xs.length := by
  cases xs with
  | nil => rfl
  | cons x xs => simp [ewm, ewmFrom_length]

theorem zipWith_sub_getD : ∀ (A B : List ℚ) (i : ℕ), i < A.length → i < B.length →
    (List.zipWith (fun a b => a - b) A B).getD i 0 = A.getD i 0 - B.getD i 0 := by
  intro A
  induction A with
  | nil => intro B i h1 h2; simp at h1
  | cons x A ih =>
      intro B i h1 h2
      cases B with
      | nil => simp at h2
      | cons y B =>
          cases i with
          | zero => simp
          | succ n =>
              simp only [List.zipWith_cons_cons, List.getD_cons_succ]
              exact ih B n (by simpa using h1) (by simpa using h2)

theorem macdLine_length (closes : List ℚ) :
    (macdLine closes).length = closes.length := by
  simp [macdLine, ewmSpan, List.length_zipWith, ewm_length]

theorem signalLine_length (closes : List ℚ) :
    (signalLine closes).length = closes.length := by
  simp [signalLine, ewmSpan, ewm_length, macdLine_length]

theorem lastElem_zipWith_sub (A B : List ℚ) (h : A.length = B.length) :
    lastElem (List.zipWith (fun a b => a - b) A B) = lastElem A - lastElem B := by
  rcases Nat.eq_zero_or_pos A.length with h0 | hpos
  · have hA : A = [] := List.length_eq_zero.mp h0
    have hB : B = [] := List.length_eq_zero.mp (by omega)
    subst hA; subst hB; simp [lastElem]
  · have hlen : (List.zipWith (fun a b => a - b) A B).length = A.length := by
      simp only [List.length_zipWith]; omega
    have hi : A.length - 1 < A.length := by omega
    have hi2 : A.length - 1 < B.length := by omega
    unfold lastElem
    rw [hlen, ← h]
    exact zipWith_sub_getD A B (A.length - 1) hi hi2

theorem computeData_hist (closes : List ℚ) (volume : ℤ) (timestamp : ℕ) :
    (computeData closes volume timestamp).macd_hist
      = (computeData closes volume timestamp).macd
        - (computeData closes volume timestamp).macd_signal := by
  show lastElem (histLine closes)
      = lastElem (macdLine closes) - lastElem (signalLine closes)
  exact lastElem_zipWith_sub _ _ (by rw [macdLine_length, signalLine_length])

theorem pyRound_intCast (n : ℤ) : pyRound (n : ℚ) = n := by
  unfold pyRound
  rw [Int.floor_intCast]
  norm_num

theorem round4_int_mul (q : ℚ) (n : ℤ) (h : q * 10000 = (n : ℚ)) :
    round4 q = q := by
  have h2 : (n : ℚ) / 10000 = q := by rw [← h]; ring
  unfold round4
  rw [h, pyRound_intCast]
  exact h2

theorem round4_fixed (m s : ℚ) :
    round4 (round4 m - round4 s) = round4 m - round4 s := by
  apply round4_int_mul _ (pyRound (m * 10000) - pyRound (s * 10000))
  unfold round4
  push_cast
  ring

/-- C9: the histogram always equals macd minus macd_signal, exactly: for
the payload of app.py fetch_stock_data, for the payload computed by
stock_analyzer.py, for the rounded values of simple_stock_analyzer.py, and
for every snapshot-store entry reachable by any sequence of merges. -/
theorem c9_hist_identity :
    (∀ (price : ℚ) (rsi : Option ℚ) (macd signal : ℚ) (volume : ℤ) (timestamp : ℕ),
      (fetch_stock_data_result price rsi macd signal volume timestamp).macd_hist
        = (fetch_stock_data_result price rsi macd signal volume timestamp).macd
          - (fetch_stock_data_result price rsi macd signal volume timestamp).macd_signal) ∧
    (∀ (closes : List ℚ) (volume : ℤ) (timestamp : ℕ),
      (computeData closes volume timestamp).macd_hist
        = (computeData closes volume timestamp).macd
          - (computeData closes volume timestamp).macd_signal) ∧
    (∀ m s : ℚ,
      simple_current_hist m s = simple_current_macd m - simple_current_signal s) ∧
    (∀ s : StockData, Reachable s → s.macd_hist = s.macd - s.macd_signal) := by
  refine ⟨fun _ _ _ _ _ _ => rfl, computeData_hist, fun m s => round4_fixed m s, ?_⟩
  intro s hs
  induction hs with
  | init symbol now => show (0 : ℚ) = 0 - 0; norm_num
  | fail s msg _ ih => exact ih
  | ok s price rsi macd signal volume timestamp _ _ => rfl

theorem c9_hist_identity_witness :
    (mergeSuccess (StockData.init ['A'] 0)
        (fetch_stock_data_result 10 (some 55) 3 1 100 7)).macd_hist
      = (mergeSuccess (StockData.init ['A'] 0)
          (fetch_stock_data_result 10 (some 55) 3 1 100 7)).macd
        - (mergeSuccess (StockData.init ['A'] 0)
            (fetch_stock_data_result 10 (some 55) 3 1 100 7)).macd_signal :=
  c9_hist_identity.2.2.2 _
    (Reachable.ok (StockData.init ['A'] 0) 10 (some 55) 3 1 100 7
      (Reachable.init ['A'] 0))

theorem emaFromRef_shift (a p : ℚ) (f : ℕ → ℚ) (i : ℕ) :
    emaFromRef a p f (i + 1)
      = emaFromRef a (f 0 * a + p * (1 - a)) (fun j => f (j + 1)) i := by
  induction i with
  | zero => rfl
  | succ n ih =>
      show f (n + 1 + 1) * a + emaFromRef a p f (n + 1) * (1 - a) = _
      rw [ih]
      rfl

theorem emaRef_succ (a : ℚ) (f : ℕ → ℚ) (i : ℕ) :
    emaRef a f (i + 1) = emaFromRef a (f 0) (fun j => f (j + 1)) i := by
  induction i with
  | zero => rfl
  | succ n ih =>
      show f (n + 1 + 1) * a + emaRef a f (n + 1) * (1 - a) = _
      rw [ih]
      rfl

theorem emaRef_congr (a : ℚ) (f g : ℕ → ℚ) :
    ∀ i : ℕ, (∀ j, j ≤ i → f j = g j) → emaRef a f i = emaRef a g i := by
  intro i
  induction i with
  | zero =>
      intro h
      show f 0 = g 0
      exact h 0 (le_refl 0)
  | succ n ih =>
      intro h
      show f (n + 1) * a + emaRef a f n * (1 - a)
        = g (n + 1) * a + emaRef a g n * (1 - a)
      rw [h (n + 1) (le_refl _), ih (fun j hj => h j (by omega))]

theorem ewmFrom_getD (a : ℚ) : ∀ (xs : List ℚ) (p : ℚ) (i : ℕ), i < xs.length →
    (ewmFrom a p xs).getD i 0 = emaFromRef a p (fun j => xs.getD j 0) i := by
  intro xs
  induction xs with
  | nil => intro p i h; simp at h
  | cons x xs ih =>
      intro p i h
      cases i with
      | zero => simp [ewmFrom, emaFromRef]
      | succ n =>
          have hn : n < xs.length := by simpa using h
          have h1 : (ewmFrom a p (x :: xs)).getD (n + 1) 0
              = (ewmFrom a (x * a + p * (1 - a)) xs).getD n 0 := by
            simp [ewmFrom]
          rw [h1, ih (x * a + p * (1 - a)) n hn, emaFromRef_shift]
          rfl

theorem ewm_getD (a : ℚ) (xs : List ℚ) (i : ℕ) (h : i < xs.length) :
    (ewm a xs).getD i 0 = emaRef a (fun j => xs.getD j 0) i := by
  cases xs with
  | nil => simp at h
  | cons x xs =>
      cases i with
      | zero => simp [ewm, emaRef]
      | succ n =>
          have hn : n < xs.length := by simpa using h
          have h1 : (ewm a (x :: xs)).getD (n + 1) 0 = (ewmFrom a x xs).getD n 0 := by
            simp [ewm]
          rw [h1, ewmFrom_getD a xs x n hn, emaRef_succ]
          rfl

theorem macdLine_getD (closes : List ℚ) (i : ℕ) (h : i < closes.length) :
    (macdLine closes).getD i 0 = macdRef (fun j => closes.getD j 0) i := by
  unfold macdLine macdRef ewmSpan
  rw [zipWith_sub_getD _ _ i (by rw [ewm_length]; exact h) (by rw [ewm_length]; exact h),
    ewm_getD _ _ _ h, ewm_getD _ _ _ h]

theorem signalLine_getD (closes : List ℚ) (i : ℕ) (h : i < closes.length) :
    (signalLine closes).getD i 0 = signalRef (fun j => closes.getD j 0) i := by
  unfold signalLine signalRef ewmSpan
  have hm : i < (macdLine closes).length := by rw [macdLine_length]; exact h
  rw [ewm_getD _ _ _ hm]
  exact emaRef_congr _ _ _ i (fun j hj => macdLine_getD closes j (lt_of_le_of_lt hj h))

/-- C7: the MACD and signal values reported by the pipeline equal the
reference definition of the specification: fast and slow EMAs follow the
recurrence with factors 2 / (span + 1) for spans 12 and 26 seeded at the
first close, macd is their difference, signal is the span-9 EMA of the
macd series under the same recurrence, and the reported values are the
last elements of those series. -/
theorem c7_macd_matches_reference (closes : List ℚ) (volume : ℤ) (timestamp : ℕ)
    (h : closes ≠ []) :
    (computeData closes volume timestamp).macd
      = macdRef (fun j => closes.getD j 0) (closes.length - 1) ∧
    (computeData closes volume timestamp).macd_signal
      = signalRef (fun j => closes.getD j 0) (closes.length - 1) := by
  have hpos : 0 < closes.length := List.length_pos.mpr h
  have hidx : closes.length - 1 < closes.length := by omega
  constructor
  · show lastElem (macdLine closes) = _
    unfold lastElem
    rw [macdLine_length]
    exact macdLine_getD closes _ hidx
  · show lastElem (signalLine closes) = _
    unfold lastElem
    rw [signalLine_length]
    exact signalLine_getD closes _ hidx

theorem c7_macd_matches_reference_witness :
    ([1, 2] : List ℚ) ≠ [] ∧
    ((computeData [1, 2] 0 0).macd
        = macdRef (fun j => ([1, 2] : List ℚ).getD j 0) (([1, 2] : List ℚ).length - 1) ∧
     (computeData [1, 2] 0 0).macd_signal
        = signalRef (fun j => ([1, 2] : List ℚ).getD j 0) (([1, 2] : List ℚ).length - 1)) :=
  ⟨by simp, c7_macd_matches_reference [1, 2] 0 0 (by simp)⟩

theorem ewmFrom_replicate (a c : ℚ) : ∀ n : ℕ,
    ewmFrom a c (List.replicate n c) = List.replicate n c := by
  intro n
  induction n with
  | zero => rfl
  | succ k ih =>
      have hy : c * a + c * (1 - a) = c := by ring
      simp [List.replicate_succ, ewmFrom, hy, ih]

theorem ewm_replicate (a c : ℚ) (n : ℕ) :
    ewm a (List.replicate n c) = List.replicate n c := by
  cases n with
  | zero => rfl
  | succ k => simp [List.replicate_succ, ewm, ewmFrom_replicate]

theorem zipWith_sub_replicate (c d : ℚ) : ∀ (m n : ℕ),
    List.zipWith (fun a b => a - b) (List.replicate m c) (List.replicate n d)
      = List.replicate (min m n) (c - d) := by
  intro m
  induction m with
  | zero => intro n; simp
  | succ k ih =>
      intro n
      cases n with
      | zero => simp
      | succ l =>
          simp only [List.replicate_succ, List.zipWith_cons_cons, ih,
            Nat.succ_min_succ]

theorem replicate_getD (c : ℚ) : ∀ (n i : ℕ), i < n →
    (List.replicate n c).getD i 0 = c := by
  intro n
  induction n with
  | zero => intro i h; omega
  | succ k ih =>
      intro i h
      cases i with
      | zero => simp [List.replicate_succ]
      | succ j =>
          simp only [List.replicate_succ, List.getD_cons_succ]
          exact ih j (by omega)

theorem macdLine_replicate (c : ℚ) (n : ℕ) :
    macdLine (List.replicate n c) = List.replicate n 0 := by
  unfold macdLine ewmSpan
  rw [ewm_replicate, ewm_replicate, zipWith_sub_replicate]
  simp

theorem signalLine_replicate (c : ℚ) (n : ℕ) :
    signalLine (List.replicate n c) = List.replicate n 0 := by
  unfold signalLine ewmSpan
  rw [macdLine_replicate, ewm_replicate]

theorem histLine_replicate (c : ℚ) (n : ℕ) :
    histLine (List.replicate n c) = List.replicate n 0 := by
  unfold histLine
  rw [macdLine_replicate, signalLine_replicate, zipWith_sub_replicate]
  simp

theorem diffsList_replicate (c : ℚ) (n : ℕ) :
    diffsList (List.replicate n c) = List.replicate (n - 1) 0 := by
  unfold diffsList
  rw [List.tail_replicate, zipWith_sub_replicate]
  have hm : min (n - 1) n = n - 1 := by omega
  rw [hm]
  simp

theorem consZero_replicate (n : ℕ) (h : 1 ≤ n) :
    (0 : ℚ) :: List.replicate (n - 1) (0 : ℚ) = List.replicate n 0 := by
  rw [← List.replicate_succ]
  congr 1
  omega

theorem gainsList_replicate (c : ℚ) (n : ℕ) (h : 1 ≤ n) :
    gainsList (List.replicate n c) = List.replicate n 0 := by
  unfold gainsList
  rw [diffsList_replicate, List.map_replicate]
  have hmax : max (0 : ℚ) 0 = 0 := max_self 0
  rw [hmax]
  exact consZero_replicate n h

theorem lossesList_replicate (c : ℚ) (n : ℕ) (h : 1 ≤ n) :
    lossesList (List.replicate n c) = List.replicate n 0 := by
  unfold lossesList
  rw [diffsList_replicate, List.map_replicate]
  have hmax : max (-(0 : ℚ)) 0 = 0 := by simp
  rw [hmax]
  exact consZero_replicate n h

theorem rollMeanLast14_replicate_zero (n : ℕ) (h : 14 ≤ n) :
    rollMeanLast14 (List.replicate n (0 : ℚ)) = some 0 := by
  unfold rollMeanLast14
  rw [List.length_replicate, if_neg (by omega), List.drop_replicate,
    List.sum_replicate]
  simp

theorem rsiLast_replicate (c : ℚ) (n : ℕ) (h : 14 ≤ n) :
    rsiLast (List.replicate n c) = none := by
  unfold rsiLast
  rw [gainsList_replicate c n (by omega), lossesList_replicate c n (by omega),
    rollMeanLast14_replicate_zero n h]
  simp

/-- C8: counterexample.  On the flat series of 27 samples all at 100, the
RSI computation divides zero average gain by zero average loss and yields
NaN (modelled as none), not the real number 50 claimed. -/
theorem c8_counterexample_flat_rsi :
    27 ≤ (List.replicate 27 (100 : ℚ)).length ∧
    (computeData (List.replicate 27 (100 : ℚ)) 0 0).rsi = none ∧
    (computeData (List.replicate 27 (100 : ℚ)) 0 0).rsi ≠ some 50 := by
  refine ⟨by simp, ?_, ?_⟩
  · show rsiLast (List.replicate 27 (100 : ℚ)) = none
    exact rsiLast_replicate 100 27 (by omega)
  · show rsiLast (List.replicate 27 (100 : ℚ)) ≠ some 50
    rw [rsiLast_replicate 100 27 (by omega)]
    simp

/-- C8 amended: a flat price series of at least 27 samples yields
macd_hist equal to 0 as claimed, but its RSI is NaN (none), because both
the average gain and the average loss over the 14-sample window are zero
and the code divides them without a boundary-case guard. -/
theorem c8_flat_series (c : ℚ) (n : ℕ) (volume : ℤ) (timestamp : ℕ)
    (h : 27 ≤ n) :
    (computeData (List.replicate n c) volume timestamp).macd_hist = 0 ∧
    (computeData (List.replicate n c) volume timestamp).rsi = none := by
  constructor
  · show lastElem (histLine (List.replicate n c)) = 0
    rw [histLine_replicate]
    unfold lastElem
    rw [List.length_replicate]
    exact replicate_getD 0 n (n - 1) (by omega)
  · show rsiLast (List.replicate n c) = none
    exact rsiLast_replicate c n (by omega)

theorem c8_flat_series_witness :
    27 ≤ (27 : ℕ) ∧
    ((computeData (List.replicate 27 (100 : ℚ)) 0 0).macd_hist = 0 ∧
     (computeData (List.replicate 27 (100 : ℚ)) 0 0).rsi = none) :=
  ⟨by decide, c8_flat_series 100 27 0 0 (by decide)⟩
